import Mathlib

/-!
Verification of the CinematicCamera controller of src/app/components/Scene.tsx.

The controller is shallowly embedded: JavaScript numbers are modelled as real
numbers, THREE.Vector3 as a record of three reals, the mutable refs of the
component as fields of an explicit state record, the DOM event handlers as
functions from events and states to states, and the per-frame useFrame callback
as a state-transition function.  `camera.getWorldDirection` queries the live
camera collaborator, so the world direction is supplied to each frame step as
an input.  The one-shot setTimeout of the startup delay is modelled as a
separate `timerFire` transition.
-/

namespace Yggdrasil

noncomputable section

/-- Three-component vector of reals, mirroring THREE.Vector3. -/
@[ext]
structure Vec3 where
  x : ℝ
  y : ℝ
  z : ℝ

instance : Add Vec3 := ⟨fun a b => ⟨a.x + b.x, a.y + b.y, a.z + b.z⟩⟩

instance : Sub Vec3 := ⟨fun a b => ⟨a.x - b.x, a.y - b.y, a.z - b.z⟩⟩

instance : SMul ℝ Vec3 := ⟨fun t v => ⟨t * v.x, t * v.y, t * v.z⟩⟩

@[simp] theorem Vec3.add_x (a b : Vec3) : (a + b).x = a.x + b.x := rfl

@[simp] theorem Vec3.add_y (a b : Vec3) : (a + b).y = a.y + b.y := rfl

@[simp] theorem Vec3.add_z (a b : Vec3) : (a + b).z = a.z + b.z := rfl

@[simp] theorem Vec3.sub_x (a b : Vec3) : (a - b).x = a.x - b.x := rfl

@[simp] theorem Vec3.sub_y (a b : Vec3) : (a - b).y = a.y - b.y := rfl

@[simp] theorem Vec3.sub_z (a b : Vec3) : (a - b).z = a.z - b.z := rfl

@[simp] theorem Vec3.smul_x (t : ℝ) (v : Vec3) : (t • v).x = t * v.x := rfl

@[simp] theorem Vec3.smul_y (t : ℝ) (v : Vec3) : (t • v).y = t * v.y := rfl

@[simp] theorem Vec3.smul_z (t : ℝ) (v : Vec3) : (t • v).z = t * v.z := rfl

/-- THREE.Vector3.length: Euclidean norm. -/
def norm3 (v : Vec3) : ℝ := Real.sqrt (v.x ^ 2 + v.y ^ 2 + v.z ^ 2)

/-- Magnitude of the horizontal (x, z) part of a vector. -/
def normXZ (v : Vec3) : ℝ := Real.sqrt (v.x ^ 2 + v.z ^ 2)

/-- THREE.Vector3.normalize: divideScalar(length || 1), so the zero vector is
left unchanged. -/
def normalize3 (v : Vec3) : Vec3 := if norm3 v = 0 then v else (norm3 v)⁻¹ • v

/-- THREE.Vector3.crossVectors. -/
def cross3 (a b : Vec3) : Vec3 :=
  ⟨a.y * b.z - a.z * b.y, a.z * b.x - a.x * b.z, a.x * b.y - a.y * b.x⟩

/-- THREE.Vector3.distanceTo. -/
def dist3 (p q : Vec3) : ℝ := norm3 (p - q)

/-- Construction-time configuration of CinematicCamera (its props), together
with the viewport size used to normalise mouse coordinates.  startupDelay is
timing-only and is represented by the separate timerFire transition. -/
structure Config where
  moveSpeed : ℝ
  friction : ℝ
  lookSensitivity : ℝ
  deadZone : ℝ
  minHeight : ℝ
  maxHeight : ℝ
  maxDistance : ℝ
  treeCenter : Vec3
  width : ℝ
  height : ℝ

/-- The refs written by the event handlers: held keys, stored mouse offset,
delay-timer flag and the activation gate. -/
@[ext]
structure InputState where
  keys : List String
  mouseX : ℝ
  mouseY : ℝ
  delayTimerStarted : Bool
  mouseControlReady : Bool

/-- The camera kinematic state owned by the frame loop: camera position and
velocity, accumulated yaw and pitch, their smoothed speeds, and the camera's
Euler rotation (order YXZ; rot.x is pitch, rot.y is yaw, rot.z is roll). -/
@[ext]
structure CameraKinematics where
  pos : Vec3
  vel : Vec3
  yaw : ℝ
  pitch : ℝ
  yawSpeed : ℝ
  pitchSpeed : ℝ
  rot : Vec3

/-- The whole mutable state of the controller. -/
@[ext]
structure State where
  input : InputState
  kin : CameraKinematics

/-- Key code of the W key. -/
def keyW : String := "KeyW"

/-- Key code of the S key. -/
def keyS : String := "KeyS"

/-- Key code of the A key. -/
def keyA : String := "KeyA"

/-- Key code of the D key. -/
def keyD : String := "KeyD"

/-- Key code of the R key. -/
def keyR : String := "KeyR"

/-- Key code of the F key. -/
def keyF : String := "KeyF"

/-- Key code of the up arrow. -/
def keyUpArrow : String := "ArrowUp"

/-- Key code of the down arrow. -/
def keyDownArrow : String := "ArrowDown"

/-- Key code of the left arrow. -/
def keyLeftArrow : String := "ArrowLeft"

/-- Key code of the right arrow. -/
def keyRightArrow : String := "ArrowRight"

/-- Key code of the space bar. -/
def keySpace : String := "Space"

/-- Key code of the left shift key. -/
def keyShiftL : String := "ShiftLeft"

/-- Key code of the right shift key. -/
def keyShiftR : String := "ShiftRight"

/-- The six DOM device events consumed by the controller. -/
inductive DevEvent
  | keyDown (code : String) (metaKey ctrlKey : Bool)
  | keyUp (code : String)
  | mouseMove (clientX clientY : ℝ)
  | mouseLeave
  | mouseEnter (clientX clientY : ℝ)
  | wheel (deltaY : ℝ)

/-- The event handlers of CinematicCamera (Scene.tsx lines 57-111).
keydown ignores chords with Cmd/Ctrl and otherwise adds the key code to the
held set; keyup removes it; mousemove and mouseenter start the delay timer on
first activity and record the normalised mouse position only once controls are
ready; mouseleave zeroes the stored offset; wheel subtracts deltaY * 0.001
directly from velocity.y. -/
def handleEvent (cfg : Config) (e : DevEvent) (s : State) : State :=
  match e with
  | DevEvent.keyDown code metaKey ctrlKey =>
      if metaKey || ctrlKey then s
      else { s with input.keys := s.input.keys.insert code }
  | DevEvent.keyUp code => { s with input.keys := s.input.keys.erase code }
  | DevEvent.mouseMove cx cy =>
      let s1 := { s with input.delayTimerStarted := true }
      if s1.input.mouseControlReady then
        { s1 with input.mouseX := cx / cfg.width * 2 - 1,
                  input.mouseY := cy / cfg.height * 2 - 1 }
      else s1
  | DevEvent.mouseLeave => { s with input.mouseX := 0, input.mouseY := 0 }
  | DevEvent.mouseEnter cx cy =>
      let s1 := { s with input.delayTimerStarted := true }
      if s1.input.mouseControlReady then
        { s1 with input.mouseX := cx / cfg.width * 2 - 1,
                  input.mouseY := cy / cfg.height * 2 - 1 }
      else s1
  | DevEvent.wheel dy => { s with kin.vel.y := s.kin.vel.y - dy * 0.001 }

/-- Horizontal forward direction (Scene.tsx lines 138-141): the camera's world
direction with its y component zeroed and then normalised. -/
def horizForward (dir : Vec3) : Vec3 := normalize3 ⟨dir.x, 0, dir.z⟩

/-- Right direction (Scene.tsx lines 143-144): cross of the horizontal forward
with world up, normalised. -/
def rightVec (fwd : Vec3) : Vec3 := normalize3 (cross3 fwd ⟨0, 1, 0⟩)

/-- Desired input direction built from the held keys
(Scene.tsx lines 147-157). -/
def inputDirOf (keys : List String) (fwd rgt : Vec3) : Vec3 :=
  let d0 : Vec3 := ⟨0, 0, 0⟩
  let d1 := if keyW ∈ keys ∨ keyUpArrow ∈ keys then d0 + fwd else d0
  let d2 := if keyS ∈ keys ∨ keyDownArrow ∈ keys then d1 + (-1 : ℝ) • fwd else d1
  let d3 := if keyA ∈ keys ∨ keyLeftArrow ∈ keys then d2 + (-1 : ℝ) • rgt else d2
  let d4 := if keyD ∈ keys ∨ keyRightArrow ∈ keys then d3 + rgt else d3
  let d5 := if keyR ∈ keys ∨ keySpace ∈ keys then { d4 with y := d4.y + 1 } else d4
  let d6 := if keyF ∈ keys ∨ keyShiftL ∈ keys ∨ keyShiftR ∈ keys then
              { d5 with y := d5.y - 1 } else d5
  d6

/-- Velocity after the movement-input stage (Scene.tsx lines 160-170): a
non-zero desired direction is normalised and scaled by moveSpeed and replaces
the velocity outright; otherwise friction decays x and z while y decays by the
hard-coded 0.7. -/
def moveVelocity (cfg : Config) (keys : List String) (fwd rgt vel : Vec3) : Vec3 :=
  let inputDir := inputDirOf keys fwd rgt
  if norm3 inputDir > 0 then cfg.moveSpeed • normalize3 inputDir
  else ⟨vel.x * cfg.friction, vel.y * 0.7, vel.z * cfg.friction⟩

/-- Floor constraint (Scene.tsx lines 177-180). -/
def clampFloor (cfg : Config) (p v : Vec3) : Vec3 × Vec3 :=
  if p.y < cfg.minHeight then ({ p with y := cfg.minHeight }, { v with y := 0 })
  else (p, v)

/-- Ceiling constraint (Scene.tsx lines 183-186). -/
def clampCeiling (cfg : Config) (p v : Vec3) : Vec3 × Vec3 :=
  if p.y > cfg.maxHeight then ({ p with y := cfg.maxHeight }, { v with y := 0 })
  else (p, v)

/-- Radial distance constraint (Scene.tsx lines 189-194): beyond maxDistance
from the tree center, the position is projected back onto the sphere of radius
maxDistance and the velocity is halved. -/
def radialClamp (cfg : Config) (p v : Vec3) : Vec3 × Vec3 :=
  if dist3 p cfg.treeCenter > cfg.maxDistance then
    (cfg.treeCenter + cfg.maxDistance • normalize3 (p - cfg.treeCenter), (0.5 : ℝ) • v)
  else (p, v)

/-- Dead-zone filter (Scene.tsx lines 199-201 and 208-210). -/
def deadZoneAdjust (dz v : ℝ) : ℝ := if |v| < dz then 0 else v - Real.sign v * dz

/-- Target yaw speed from the stored mouse x offset (Scene.tsx line 203). -/
def targetYawSpeed (cfg : Config) (mx : ℝ) : ℝ :=
  -(deadZoneAdjust cfg.deadZone mx) * cfg.lookSensitivity * 0.012

/-- Target pitch speed from the stored mouse y offset (Scene.tsx line 212). -/
def targetPitchSpeed (cfg : Config) (my : ℝ) : ℝ :=
  -(deadZoneAdjust cfg.deadZone my) * cfg.lookSensitivity * 0.007

/-- Mouse-look block (Scene.tsx lines 197-218), gated on mouseControlReady:
the angular speeds ease toward their targets by a 0.04 factor, yaw and pitch
accumulate the smoothed speeds, and pitch is clamped to [-0.7, 0.7]. -/
def mouseLook (cfg : Config) (input : InputState) (k : CameraKinematics) :
    CameraKinematics :=
  if input.mouseControlReady then
    let ys := k.yawSpeed + (targetYawSpeed cfg input.mouseX - k.yawSpeed) * 0.04
    let ps := k.pitchSpeed + (targetPitchSpeed cfg input.mouseY - k.pitchSpeed) * 0.04
    { k with yaw := k.yaw + ys,
             pitch := max (-0.7) (min 0.7 (k.pitch + ps)),
             yawSpeed := ys,
             pitchSpeed := ps }
  else k

/-- Rotation application (Scene.tsx lines 221-223): with Euler order YXZ,
rotation.y is assigned the accumulated yaw and rotation.x the accumulated
pitch; rotation.z is never written. -/
def applyRotation (k : CameraKinematics) : CameraKinematics :=
  { k with rot := ⟨k.pitch, k.yaw, k.rot.z⟩ }

/-- Velocity after the movement-input stage of a frame. -/
def velAfterInput (cfg : Config) (dir : Vec3) (s : State) : Vec3 :=
  moveVelocity cfg s.input.keys (horizForward dir) (rightVec (horizForward dir))
    s.kin.vel

/-- Position and velocity after integration (Scene.tsx line 173). -/
def pvIntegrated (cfg : Config) (dir : Vec3) (s : State) : Vec3 × Vec3 :=
  (s.kin.pos + velAfterInput cfg dir s, velAfterInput cfg dir s)

/-- Position and velocity after the floor constraint. -/
def pvFloor (cfg : Config) (dir : Vec3) (s : State) : Vec3 × Vec3 :=
  clampFloor cfg (pvIntegrated cfg dir s).1 (pvIntegrated cfg dir s).2

/-- Position and velocity after the ceiling constraint. -/
def pvCeiling (cfg : Config) (dir : Vec3) (s : State) : Vec3 × Vec3 :=
  clampCeiling cfg (pvFloor cfg dir s).1 (pvFloor cfg dir s).2

/-- Position and velocity after all three boundary constraints. -/
def pvFinal (cfg : Config) (dir : Vec3) (s : State) : Vec3 × Vec3 :=
  radialClamp cfg (pvCeiling cfg dir s).1 (pvCeiling cfg dir s).2

/-- One full useFrame step (Scene.tsx lines 134-224).  `dir` is the camera's
current world direction as returned by camera.getWorldDirection. -/
def frameStep (cfg : Config) (dir : Vec3) (s : State) : State :=
  { s with kin :=
      applyRotation (mouseLook cfg s.input
        { s.kin with pos := (pvFinal cfg dir s).1, vel := (pvFinal cfg dir s).2 }) }

/-- One transition of the whole controller: a device event, the firing of the
startup-delay timer, or a rendered frame. -/
inductive Act
  | ev (e : DevEvent)
  | timerFire
  | frame (dir : Vec3)

/-- Apply one transition. -/
def applyAct (cfg : Config) (a : Act) (s : State) : State :=
  match a with
  | Act.ev e => handleEvent cfg e s
  | Act.timerFire =>
      if s.input.delayTimerStarted then { s with input.mouseControlReady := true }
      else s
  | Act.frame dir => frameStep cfg dir s

/-- Run a list of transitions from a state. -/
def run (cfg : Config) (acts : List Act) (s : State) : State :=
  acts.foldl (fun t a => applyAct cfg a t) s

/-- Initial state of a session: no keys held, zero mouse offset, timer not
started, controls not ready, zero velocity, zero yaw and pitch and angular
speeds; initial camera position and rotation supplied by the host canvas. -/
def initState (p₀ r₀ : Vec3) : State :=
  { input := ⟨[], 0, 0, false, false⟩,
    kin := ⟨p₀, ⟨0, 0, 0⟩, 0, 0, 0, 0, r₀⟩ }

/-- World direction of a camera looking along negative z. -/
def dirNegZ : Vec3 := ⟨0, 0, -1⟩

/-- Configuration exhibiting the failure of the height claim: the anchor's y
component (5) lies above maxHeight (1), as it also does in the component's
default props. -/
def cfgC1 : Config :=
  ⟨1, 0.95, 1.5, 0.1, 0, 1, 1, ⟨0, 5, 22⟩, 100, 100⟩

/-- A session start at the canvas's initial camera position (0, 8, 25). -/
def sC1 : State := initState ⟨0, 8, 25⟩ ⟨0, 0, 0⟩

/-- Well-formed configuration used to witness the amended height claim. -/
def cfgC1w : Config :=
  ⟨1, 0.95, 1.5, 0.1, 0, 100, 10, ⟨0, 0, 0⟩, 100, 100⟩

/-- Configuration of the radial-clamp scenario: anchor at the origin,
maxDistance 10. -/
def cfgC2 : Config :=
  ⟨1, 0.95, 1.5, 0.1, 0, 100, 10, ⟨0, 0, 0⟩, 100, 100⟩

/-- Configuration used to witness the forward-key claim. -/
def cfgC4 : Config :=
  ⟨2, 0.5, 1.5, 0.1, -10, 10, 100, ⟨0, 0, 0⟩, 100, 100⟩

/-- State holding only the W key, with a non-zero prior velocity. -/
def sC4 : State :=
  { input := ⟨[keyW], 0, 0, false, false⟩,
    kin := ⟨⟨0, 0, 0⟩, ⟨5, 5, 5⟩, 0, 0, 0, 0, ⟨0, 0, 0⟩⟩ }

/-- Configuration of the friction scenario: moveSpeed 1, friction 1/2,
boundaries far away from the trajectory. -/
def cfgC5 : Config :=
  ⟨1, 1 / 2, 1.5, 0.1, -1, 1, 100, ⟨0, 0, 0⟩, 100, 100⟩

/-- Fresh session state at the origin for the friction scenario. -/
def sC5 : State := initState ⟨0, 0, 0⟩ ⟨0, 0, 0⟩

/-- Pressing the W key. -/
def actKD : Act := Act.ev (DevEvent.keyDown keyW false false)

/-- Releasing the W key. -/
def actKU : Act := Act.ev (DevEvent.keyUp keyW)

/-- A rendered frame with the camera looking along negative z. -/
def actF : Act := Act.frame dirNegZ

/-- Friction scenario, after pressing W. -/
def sC5a : State :=
  ⟨⟨[keyW], 0, 0, false, false⟩,
   ⟨⟨0, 0, 0⟩, ⟨0, 0, 0⟩, 0, 0, 0, 0, ⟨0, 0, 0⟩⟩⟩

/-- Friction scenario, after the frame with W held: speed 1. -/
def sC5b : State :=
  ⟨⟨[keyW], 0, 0, false, false⟩,
   ⟨⟨0, 0, -1⟩, ⟨0, 0, -1⟩, 0, 0, 0, 0, ⟨0, 0, 0⟩⟩⟩

/-- Friction scenario, after releasing W. -/
def sC5c : State :=
  ⟨⟨[], 0, 0, false, false⟩,
   ⟨⟨0, 0, -1⟩, ⟨0, 0, -1⟩, 0, 0, 0, 0, ⟨0, 0, 0⟩⟩⟩

/-- Friction scenario, after the first keyless frame: speed 1/2. -/
def sC5d : State :=
  ⟨⟨[], 0, 0, false, false⟩,
   ⟨⟨0, 0, -(3 / 2)⟩, ⟨0, 0, -(1 / 2)⟩, 0, 0, 0, 0, ⟨0, 0, 0⟩⟩⟩

/-- Friction scenario, after the second keyless frame: speed 1/4. -/
def sC5e : State :=
  ⟨⟨[], 0, 0, false, false⟩,
   ⟨⟨0, 0, -(7 / 4)⟩, ⟨0, 0, -(1 / 4)⟩, 0, 0, 0, 0, ⟨0, 0, 0⟩⟩⟩

/-- Friction scenario, after the third keyless frame: speed 1/8. -/
def sC5f : State :=
  ⟨⟨[], 0, 0, false, false⟩,
   ⟨⟨0, 0, -(15 / 8)⟩, ⟨0, 0, -(1 / 8)⟩, 0, 0, 0, 0, ⟨0, 0, 0⟩⟩⟩

/-- Configuration for the mouse-look claims: deadZone 0.1, sensitivity 1. -/
def cfgC6 : Config :=
  ⟨1, 0.5, 1, 0.1, -10, 10, 100, ⟨0, 0, 0⟩, 100, 100⟩

/-- Active-mouse state with the mouse held right of the dead zone while the
smoothed yaw speed is still positive from earlier input. -/
def sC6 : State :=
  { input := ⟨[], 0.5, 0, true, true⟩,
    kin := ⟨⟨0, 0, 0⟩, ⟨0, 0, 0⟩, 0, 0, 1, 0, ⟨0, 0, 0⟩⟩ }

/-- Active-mouse state at angular rest with the mouse held right of the dead
zone. -/
def sC6w : State :=
  { input := ⟨[], 0.5, 0, true, true⟩,
    kin := ⟨⟨0, 0, 0⟩, ⟨0, 0, 0⟩, 0, 0, 0, 0, ⟨0, 0, 0⟩⟩ }

/-- Configuration for the pre-activation mouse-move claim. -/
def cfgC7 : Config :=
  ⟨1, 0.5, 1, 0.1, -10, 10, 100, ⟨0, 0, 0⟩, 100, 100⟩

/-- State whose delay timer has started but whose controls are not yet
ready. -/
def sC7 : State :=
  { input := ⟨[], 0, 0, true, false⟩,
    kin := ⟨⟨0, 0, 0⟩, ⟨0, 0, 0⟩, 0, 0, 0, 0, ⟨0, 0, 0⟩⟩ }

/-- Configuration for the pointer-leave claim. -/
def cfgC8 : Config :=
  ⟨1, 0.5, 1, 0.1, -10, 10, 100, ⟨0, 0, 0⟩, 100, 100⟩

/-- Active-mouse state with a built-up smoothed yaw speed from a pre-leave
offset. -/
def sC8 : State :=
  { input := ⟨[], 0.5, 0, true, true⟩,
    kin := ⟨⟨0, 0, 0⟩, ⟨0, 0, 0⟩, 0, 0, 1, 0, ⟨0, 0, 0⟩⟩ }

/-- Configuration for the single-writer claim. -/
def cfgC9 : Config :=
  ⟨1, 0.5, 1, 0.1, -10, 10, 100, ⟨0, 0, 0⟩, 100, 100⟩

/-- Fresh session state for the single-writer claim. -/
def sC9 : State := initState ⟨0, 0, 0⟩ ⟨0, 0, 0⟩

/-- Configuration for the rotation-application claim. -/
def cfgC10 : Config :=
  ⟨1, 0.5, 1, 0.1, -10, 10, 100, ⟨0, 0, 0⟩, 100, 100⟩

theorem sqrt_eval {a b : ℝ} (hb : 0 ≤ b) (h : b ^ 2 = a) : Real.sqrt a = b := by
  rw [← h, Real.sqrt_sq hb]

theorem norm3_nonneg (v : Vec3) : 0 ≤ norm3 v := Real.sqrt_nonneg _

theorem norm3_mk (a b c : ℝ) :
    norm3 ⟨a, b, c⟩ = Real.sqrt (a ^ 2 + b ^ 2 + c ^ 2) := rfl

theorem norm3_pos_iff (v : Vec3) :
    0 < norm3 v ↔ 0 < v.x ^ 2 + v.y ^ 2 + v.z ^ 2 := Real.sqrt_pos

theorem norm3_smul (t : ℝ) (v : Vec3) : norm3 (t • v) = |t| * norm3 v := by
  unfold norm3
  simp only [Vec3.smul_x, Vec3.smul_y, Vec3.smul_z]
  rw [show (t * v.x) ^ 2 + (t * v.y) ^ 2 + (t * v.z) ^ 2
        = t ^ 2 * (v.x ^ 2 + v.y ^ 2 + v.z ^ 2) by ring,
      Real.sqrt_mul (sq_nonneg t), Real.sqrt_sq_eq_abs]

theorem norm3_normalize3 (v : Vec3) (h : norm3 v ≠ 0) :
    norm3 (normalize3 v) = 1 := by
  unfold normalize3
  rw [if_neg h, norm3_smul,
      abs_of_nonneg (inv_nonneg.mpr (norm3_nonneg v)), inv_mul_cancel₀ h]

theorem normalize3_of_norm_one (v : Vec3) (h : norm3 v = 1) :
    normalize3 v = v := by
  unfold normalize3
  rw [if_neg (by rw [h]; norm_num), h]
  ext <;> simp

theorem dist3_nonneg (p q : Vec3) : 0 ≤ dist3 p q := Real.sqrt_nonneg _

theorem dist3_add_cancel (c w : Vec3) : dist3 (c + w) c = norm3 w := by
  unfold dist3
  congr 1
  ext <;> simp

theorem radialClamp_triggered (cfg : Config) (p v : Vec3)
    (h : dist3 p cfg.treeCenter > cfg.maxDistance) :
    radialClamp cfg p v =
      (cfg.treeCenter + cfg.maxDistance • normalize3 (p - cfg.treeCenter),
       (0.5 : ℝ) • v) := by
  unfold radialClamp
  rw [if_pos h]

theorem radialClamp_skipped (cfg : Config) (p v : Vec3)
    (h : ¬ dist3 p cfg.treeCenter > cfg.maxDistance) :
    radialClamp cfg p v = (p, v) := by
  unfold radialClamp
  rw [if_neg h]

theorem radialClamp_dist_le (cfg : Config) (p v : Vec3)
    (hm : 0 ≤ cfg.maxDistance) :
    dist3 (radialClamp cfg p v).1 cfg.treeCenter ≤ cfg.maxDistance := by
  by_cases h : dist3 p cfg.treeCenter > cfg.maxDistance
  · rw [radialClamp_triggered cfg p v h]
    have hne : norm3 (p - cfg.treeCenter) ≠ 0 :=
      ne_of_gt (lt_of_le_of_lt hm h)
    dsimp only
    rw [dist3_add_cancel, norm3_smul, norm3_normalize3 _ hne, mul_one,
        abs_of_nonneg hm]
  · rw [radialClamp_skipped cfg p v h]
    exact le_of_not_lt h

theorem frameStep_input (cfg : Config) (dir : Vec3) (s : State) :
    (frameStep cfg dir s).input = s.input := rfl

theorem frameStep_kin_pos (cfg : Config) (dir : Vec3) (s : State) :
    (frameStep cfg dir s).kin.pos = (pvFinal cfg dir s).1 := by
  by_cases h : s.input.mouseControlReady <;>
    simp [frameStep, applyRotation, mouseLook, h]

theorem frameStep_kin_vel (cfg : Config) (dir : Vec3) (s : State) :
    (frameStep cfg dir s).kin.vel = (pvFinal cfg dir s).2 := by
  by_cases h : s.input.mouseControlReady <;>
    simp [frameStep, applyRotation, mouseLook, h]

theorem frameStep_kin_yawSpeed (cfg : Config) (dir : Vec3) (s : State) :
    (frameStep cfg dir s).kin.yawSpeed =
      if s.input.mouseControlReady then
        s.kin.yawSpeed +
          (targetYawSpeed cfg s.input.mouseX - s.kin.yawSpeed) * 0.04
      else s.kin.yawSpeed := by
  by_cases h : s.input.mouseControlReady <;>
    simp [frameStep, applyRotation, mouseLook, h]

theorem frameStep_kin_yaw (cfg : Config) (dir : Vec3) (s : State) :
    (frameStep cfg dir s).kin.yaw =
      if s.input.mouseControlReady then
        s.kin.yaw + (s.kin.yawSpeed +
          (targetYawSpeed cfg s.input.mouseX - s.kin.yawSpeed) * 0.04)
      else s.kin.yaw := by
  by_cases h : s.input.mouseControlReady <;>
    simp [frameStep, applyRotation, mouseLook, h]

theorem frameStep_kin_pitchSpeed (cfg : Config) (dir : Vec3) (s : State) :
    (frameStep cfg dir s).kin.pitchSpeed =
      if s.input.mouseControlReady then
        s.kin.pitchSpeed +
          (targetPitchSpeed cfg s.input.mouseY - s.kin.pitchSpeed) * 0.04
      else s.kin.pitchSpeed := by
  by_cases h : s.input.mouseControlReady <;>
    simp [frameStep, applyRotation, mouseLook, h]

theorem frameStep_kin_pitch (cfg : Config) (dir : Vec3) (s : State) :
    (frameStep cfg dir s).kin.pitch =
      if s.input.mouseControlReady then
        max (-0.7) (min 0.7 (s.kin.pitch + (s.kin.pitchSpeed +
          (targetPitchSpeed cfg s.input.mouseY - s.kin.pitchSpeed) * 0.04)))
      else s.kin.pitch := by
  by_cases h : s.input.mouseControlReady <;>
    simp [frameStep, applyRotation, mouseLook, h]

theorem frameStep_kin_rot (cfg : Config) (dir : Vec3) (s : State) :
    (frameStep cfg dir s).kin.rot =
      ⟨(frameStep cfg dir s).kin.pitch, (frameStep cfg dir s).kin.yaw,
        s.kin.rot.z⟩ := by
  by_cases h : s.input.mouseControlReady <;>
    simp [frameStep, applyRotation, mouseLook, h]

theorem handleEvent_kin_yaw (cfg : Config) (e : DevEvent) (s : State) :
    (handleEvent cfg e s).kin.yaw = s.kin.yaw := by
  cases e <;> simp only [handleEvent] <;> (repeat' split) <;> rfl

theorem handleEvent_kin_pitch (cfg : Config) (e : DevEvent) (s : State) :
    (handleEvent cfg e s).kin.pitch = s.kin.pitch := by
  cases e <;> simp only [handleEvent] <;> (repeat' split) <;> rfl

theorem handleEvent_kin_rot (cfg : Config) (e : DevEvent) (s : State) :
    (handleEvent cfg e s).kin.rot = s.kin.rot := by
  cases e <;> simp only [handleEvent] <;> (repeat' split) <;> rfl

theorem handleEvent_ready (cfg : Config) (e : DevEvent) (s : State) :
    (handleEvent cfg e s).input.mouseControlReady =
      s.input.mouseControlReady := by
  cases e <;> simp only [handleEvent] <;> (repeat' split) <;> rfl

theorem run_nil (cfg : Config) (s : State) : run cfg [] s = s := rfl

theorem run_cons (cfg : Config) (a : Act) (acts : List Act) (s : State) :
    run cfg (a :: acts) s = run cfg acts (applyAct cfg a s) := rfl

theorem deadZoneAdjust_zero (dz : ℝ) : deadZoneAdjust dz 0 = 0 := by
  unfold deadZoneAdjust
  split <;> simp [Real.sign_zero]

theorem targetYawSpeed_zero (cfg : Config) : targetYawSpeed cfg 0 = 0 := by
  unfold targetYawSpeed
  rw [deadZoneAdjust_zero]
  ring

theorem targetPitchSpeed_zero (cfg : Config) : targetPitchSpeed cfg 0 = 0 := by
  unfold targetPitchSpeed
  rw [deadZoneAdjust_zero]
  ring

theorem deadZoneAdjust_of_gt (dz v : ℝ) (h0 : 0 ≤ dz) (h : dz < v) :
    deadZoneAdjust dz v = v - dz := by
  unfold deadZoneAdjust
  have hv : 0 < v := lt_of_le_of_lt h0 h
  rw [if_neg (by rw [abs_of_pos hv]; exact not_lt.mpr h.le),
      Real.sign_of_pos hv, one_mul]

theorem clampFloor_y (cfg : Config) (p v : Vec3) :
    cfg.minHeight ≤ (clampFloor cfg p v).1.y := by
  unfold clampFloor
  split
  · exact le_rfl
  · rename_i h
    exact le_of_not_lt h

theorem clampCeiling_y (cfg : Config) (p v : Vec3)
    (hmin : cfg.minHeight ≤ p.y) (h1 : cfg.minHeight ≤ cfg.maxHeight) :
    cfg.minHeight ≤ (clampCeiling cfg p v).1.y ∧
      (clampCeiling cfg p v).1.y ≤ cfg.maxHeight := by
  unfold clampCeiling
  split
  · exact ⟨h1, le_rfl⟩
  · rename_i h
    exact ⟨hmin, le_of_not_lt h⟩

theorem radialClamp_y_mem (cfg : Config) (p v : Vec3)
    (h2 : 0 ≤ cfg.maxDistance) (h3 : cfg.minHeight ≤ cfg.treeCenter.y)
    (h4 : cfg.treeCenter.y ≤ cfg.maxHeight)
    (hp : cfg.minHeight ≤ p.y ∧ p.y ≤ cfg.maxHeight) :
    cfg.minHeight ≤ (radialClamp cfg p v).1.y ∧
      (radialClamp cfg p v).1.y ≤ cfg.maxHeight := by
  by_cases h : dist3 p cfg.treeCenter > cfg.maxDistance
  · rw [radialClamp_triggered cfg p v h]
    have hd0 : (0 : ℝ) < norm3 (p - cfg.treeCenter) := lt_of_le_of_lt h2 h
    have hne : norm3 (p - cfg.treeCenter) ≠ 0 := ne_of_gt hd0
    dsimp only
    unfold normalize3
    rw [if_neg hne]
    simp only [Vec3.add_y, Vec3.smul_y, Vec3.sub_y]
    have ht0 : 0 ≤ cfg.maxDistance * (norm3 (p - cfg.treeCenter))⁻¹ :=
      mul_nonneg h2 (inv_nonneg.mpr (norm3_nonneg _))
    have ht1 : cfg.maxDistance * (norm3 (p - cfg.treeCenter))⁻¹ ≤ 1 := by
      rw [← div_eq_mul_inv, div_le_one hd0]
      exact le_of_lt h
    constructor
    · nlinarith [mul_nonneg (sub_nonneg.mpr ht1) (sub_nonneg.mpr h3),
        mul_nonneg ht0 (sub_nonneg.mpr hp.1)]
    · nlinarith [mul_nonneg (sub_nonneg.mpr ht1) (sub_nonneg.mpr h4),
        mul_nonneg ht0 (sub_nonneg.mpr hp.2)]
  · rw [radialClamp_skipped cfg p v h]
    exact hp

/-- Claim C1 fails as stated: with minHeight 0, maxHeight 1, maxDistance 1 and
anchor (0, 5, 22) — the anchor's y above maxHeight, as in the component's
default props — a single frame from the canvas's initial camera position ends
with position.y = 21/5, outside [minHeight, maxHeight], because the radial
clamp (which runs after the height clamps) pulls the position toward the
anchor. -/
theorem claim_C1_counterexample :
    ¬ ((frameStep cfgC1 dirNegZ sC1).kin.pos.y ∈
        Set.Icc cfgC1.minHeight cfgC1.maxHeight) := by
  have hs : Real.sqrt 25 = 5 := sqrt_eval (by norm_num) (by norm_num)
  have h1 : velAfterInput cfgC1 dirNegZ sC1 = ⟨0, 0, 0⟩ := by
    norm_num [velAfterInput, moveVelocity, inputDirOf, sC1, initState, norm3,
      Real.sqrt_zero, cfgC1]
  have h2 : (frameStep cfgC1 dirNegZ sC1).kin.pos.y = 21 / 5 := by
    rw [frameStep_kin_pos]
    simp only [pvFinal, pvCeiling, pvFloor, pvIntegrated, h1]
    norm_num [radialClamp, clampFloor, clampCeiling, dist3, norm3, normalize3,
      sC1, initState, cfgC1, hs]
  intro hmem
  rw [Set.mem_Icc, h2] at hmem
  have := hmem.2
  norm_num [cfgC1] at this

/-- Claim C1, amended: for every configuration whose height interval is
non-degenerate (minHeight ≤ maxHeight), whose maxDistance is non-negative and
whose anchor y lies inside [minHeight, maxHeight], after the clamp steps of
every frame the camera's position.y lies within [minHeight, maxHeight], for
every state and every input. -/
theorem claim_C1 (cfg : Config) (dir : Vec3) (s : State)
    (h1 : cfg.minHeight ≤ cfg.maxHeight) (h2 : 0 ≤ cfg.maxDistance)
    (h3 : cfg.minHeight ≤ cfg.treeCenter.y)
    (h4 : cfg.treeCenter.y ≤ cfg.maxHeight) :
    (frameStep cfg dir s).kin.pos.y ∈
      Set.Icc cfg.minHeight cfg.maxHeight := by
  rw [frameStep_kin_pos, Set.mem_Icc]
  have hfl : cfg.minHeight ≤ (pvFloor cfg dir s).1.y :=
    clampFloor_y cfg (pvIntegrated cfg dir s).1 (pvIntegrated cfg dir s).2
  have hcl : cfg.minHeight ≤ (pvCeiling cfg dir s).1.y ∧
      (pvCeiling cfg dir s).1.y ≤ cfg.maxHeight :=
    clampCeiling_y cfg (pvFloor cfg dir s).1 (pvFloor cfg dir s).2 hfl h1
  exact radialClamp_y_mem cfg (pvCeiling cfg dir s).1 (pvCeiling cfg dir s).2
    h2 h3 h4 hcl

/-- Witness for the amended claim C1 at a concrete well-formed
configuration. -/
theorem claim_C1_witness :
    cfgC1w.minHeight ≤ cfgC1w.maxHeight ∧ 0 ≤ cfgC1w.maxDistance ∧
    cfgC1w.minHeight ≤ cfgC1w.treeCenter.y ∧
    cfgC1w.treeCenter.y ≤ cfgC1w.maxHeight ∧
    (frameStep cfgC1w dirNegZ sC1).kin.pos.y ∈
      Set.Icc cfgC1w.minHeight cfgC1w.maxHeight := by
  refine ⟨?_, ?_, ?_, ?_, claim_C1 cfgC1w dirNegZ sC1 ?_ ?_ ?_ ?_⟩ <;>
    norm_num [cfgC1w]

/-- Claim C2: whenever the distance from the anchor exceeds maxDistance the
position is projected onto the sphere of radius maxDistance around the anchor
and the velocity is halved; consequently (for non-negative maxDistance) after
the radial clamp of every frame the distance from the anchor is at most
maxDistance; and with anchor (0,0,0) and maxDistance 10, a position pushed to
(15,0,0) is clamped to exactly (10,0,0). -/
theorem claim_C2 :
    (∀ (cfg : Config) (dir : Vec3) (s : State), 0 ≤ cfg.maxDistance →
        dist3 (frameStep cfg dir s).kin.pos cfg.treeCenter ≤
          cfg.maxDistance) ∧
    (∀ (cfg : Config) (p v : Vec3),
        dist3 p cfg.treeCenter > cfg.maxDistance →
        radialClamp cfg p v =
          (cfg.treeCenter + cfg.maxDistance • normalize3 (p - cfg.treeCenter),
           (0.5 : ℝ) • v)) ∧
    radialClamp cfgC2 ⟨15, 0, 0⟩ ⟨0, 0, 0⟩ = (⟨10, 0, 0⟩, ⟨0, 0, 0⟩) := by
  have h225 : Real.sqrt 225 = 15 := sqrt_eval (by norm_num) (by norm_num)
  have hd : dist3 (⟨15, 0, 0⟩ : Vec3) cfgC2.treeCenter = 15 := by
    norm_num [dist3, norm3, cfgC2, h225]
  refine ⟨?_, fun cfg p v h => radialClamp_triggered cfg p v h, ?_⟩
  · intro cfg dir s hm
    rw [frameStep_kin_pos]
    unfold pvFinal
    exact radialClamp_dist_le cfg _ _ hm
  · rw [radialClamp_triggered _ _ _ (by rw [hd]; norm_num [cfgC2])]
    have hn : norm3 ((⟨15, 0, 0⟩ : Vec3) - cfgC2.treeCenter) = 15 := hd
    unfold normalize3
    rw [if_neg (by rw [hn]; norm_num), hn]
    refine Prod.ext ?_ ?_ <;> ext <;> norm_num [cfgC2]

/-- Witness for claim C2: the radial bound instantiated at a concrete
configuration, direction and state. -/
theorem claim_C2_witness :
    (0 : ℝ) ≤ cfgC2.maxDistance ∧
    dist3 (frameStep cfgC2 dirNegZ (initState ⟨0, 0, 0⟩ ⟨0, 0, 0⟩)).kin.pos
        cfgC2.treeCenter ≤ cfgC2.maxDistance := by
  constructor
  · norm_num [cfgC2]
  · exact claim_C2.1 cfgC2 dirNegZ (initState ⟨0, 0, 0⟩ ⟨0, 0, 0⟩)
      (by norm_num [cfgC2])

theorem applyAct_pitch_mem (cfg : Config) (a : Act) (s : State)
    (h : s.kin.pitch ∈ Set.Icc (-0.7 : ℝ) 0.7) :
    (applyAct cfg a s).kin.pitch ∈ Set.Icc (-0.7 : ℝ) 0.7 := by
  cases a with
  | ev e =>
    show (handleEvent cfg e s).kin.pitch ∈ _
    rw [handleEvent_kin_pitch]
    exact h
  | timerFire =>
    show (if s.input.delayTimerStarted then _ else _ : State).kin.pitch ∈ _
    split <;> exact h
  | frame dir =>
    show (frameStep cfg dir s).kin.pitch ∈ _
    rw [frameStep_kin_pitch]
    split
    · rw [Set.mem_Icc]
      exact ⟨le_max_left _ _, max_le (by norm_num) (min_le_left _ _)⟩
    · exact h

theorem run_pitch_mem (cfg : Config) (acts : List Act) :
    ∀ s : State, s.kin.pitch ∈ Set.Icc (-0.7 : ℝ) 0.7 →
      (run cfg acts s).kin.pitch ∈ Set.Icc (-0.7 : ℝ) 0.7 := by
  induction acts with
  | nil => exact fun s h => h
  | cons a t ih =>
    intro s h
    rw [run_cons]
    exact ih _ (applyAct_pitch_mem cfg a s h)

/-- Claim C3: for every configuration, every initial camera pose and every
input history, the accumulated pitch stays within the fixed symmetric range
[-0.7, 0.7] radians. -/
theorem claim_C3 (cfg : Config) (acts : List Act) (p₀ r₀ : Vec3) :
    (run cfg acts (initState p₀ r₀)).kin.pitch ∈ Set.Icc (-0.7 : ℝ) 0.7 :=
  run_pitch_mem cfg acts (initState p₀ r₀)
    (by rw [Set.mem_Icc]; norm_num [initState])

/-- Claim C9 fails as stated: a wheel event writes directly to the camera
kinematics (it changes velocity.y), as shown on a fresh session state. -/
theorem claim_C9_counterexample :
    (handleEvent cfgC9 (DevEvent.wheel 1000) sC9).kin ≠ sC9.kin := by
  intro h
  have h2 := congrArg (fun k => k.vel.y) h
  norm_num [handleEvent, sC9, initState] at h2

/-- Claim C9, amended: the keyboard, mouse-move, pointer-leave and
pointer-enter handlers write only to the input state and leave the camera
kinematics untouched; the wheel handler, however, writes directly to the
kinematics: it subtracts deltaY * 0.001 from velocity.y and changes nothing
in the input state. -/
theorem claim_C9 (cfg : Config) (s : State) (code : String) (m c : Bool)
    (cx cy cx2 cy2 dy : ℝ) :
    (handleEvent cfg (DevEvent.keyDown code m c) s).kin = s.kin ∧
    (handleEvent cfg (DevEvent.keyUp code) s).kin = s.kin ∧
    (handleEvent cfg (DevEvent.mouseMove cx cy) s).kin = s.kin ∧
    (handleEvent cfg DevEvent.mouseLeave s).kin = s.kin ∧
    (handleEvent cfg (DevEvent.mouseEnter cx2 cy2) s).kin = s.kin ∧
    (handleEvent cfg (DevEvent.wheel dy) s).kin =
      { s.kin with vel := { s.kin.vel with y := s.kin.vel.y - dy * 0.001 } } ∧
    (handleEvent cfg (DevEvent.wheel dy) s).input = s.input := by
  refine ⟨?_, rfl, ?_, rfl, ?_, rfl, rfl⟩ <;>
    (simp only [handleEvent]; split <;> rfl)

theorem run_noTimer_inv (cfg : Config) (acts : List Act) :
    ∀ s : State, (∀ a ∈ acts, a ≠ Act.timerFire) →
      s.input.mouseControlReady = false →
      (run cfg acts s).input.mouseControlReady = false ∧
      (run cfg acts s).kin.yaw = s.kin.yaw ∧
      (run cfg acts s).kin.pitch = s.kin.pitch ∧
      (run cfg acts s).kin.rot.z = s.kin.rot.z := by
  induction acts with
  | nil => exact fun s _ hr => ⟨hr, rfl, rfl, rfl⟩
  | cons a t ih =>
    intro s hno hr
    rw [run_cons]
    have ha : a ≠ Act.timerFire := hno a (List.mem_cons_self a t)
    have ht : ∀ b ∈ t, b ≠ Act.timerFire := fun b hb =>
      hno b (List.mem_cons_of_mem a hb)
    have hstep : (applyAct cfg a s).input.mouseControlReady = false ∧
        (applyAct cfg a s).kin.yaw = s.kin.yaw ∧
        (applyAct cfg a s).kin.pitch = s.kin.pitch ∧
        (applyAct cfg a s).kin.rot.z = s.kin.rot.z := by
      cases a with
      | ev e =>
        exact ⟨(handleEvent_ready cfg e s).trans hr,
          handleEvent_kin_yaw cfg e s, handleEvent_kin_pitch cfg e s,
          by rw [show (applyAct cfg (Act.ev e) s) = handleEvent cfg e s
                   from rfl, handleEvent_kin_rot]⟩
      | timerFire => exact absurd rfl ha
      | frame dir =>
        refine ⟨hr, ?_, ?_, ?_⟩
        · show (frameStep cfg dir s).kin.yaw = s.kin.yaw
          rw [frameStep_kin_yaw, hr]
          simp
        · show (frameStep cfg dir s).kin.pitch = s.kin.pitch
          rw [frameStep_kin_pitch, hr]
          simp
        · show (frameStep cfg dir s).kin.rot.z = s.kin.rot.z
          rw [frameStep_kin_rot]
    obtain ⟨h1, h2, h3, h4⟩ := hstep
    obtain ⟨g1, g2, g3, g4⟩ := ih (applyAct cfg a s) ht h1
    exact ⟨g1, g2.trans h2, g3.trans h3, g4.trans h4⟩

/-- Claim C10: every frame assigns rotation.y from the accumulated yaw and
rotation.x from the accumulated pitch and never writes rotation.z; until the
activation timer fires, yaw and pitch are exactly 0 along every history, and
the roll component of every externally supplied initial rotation survives
while rotation.x and rotation.y are overwritten to 0 from the very first
frame. -/
theorem claim_C10 :
    (∀ (cfg : Config) (dir : Vec3) (s : State),
        (frameStep cfg dir s).kin.rot.y = (frameStep cfg dir s).kin.yaw ∧
        (frameStep cfg dir s).kin.rot.x = (frameStep cfg dir s).kin.pitch ∧
        (frameStep cfg dir s).kin.rot.z = s.kin.rot.z) ∧
    (∀ (cfg : Config) (acts : List Act) (p₀ r₀ : Vec3),
        (∀ a ∈ acts, a ≠ Act.timerFire) →
        (run cfg acts (initState p₀ r₀)).kin.yaw = 0 ∧
        (run cfg acts (initState p₀ r₀)).kin.pitch = 0 ∧
        (run cfg acts (initState p₀ r₀)).kin.rot.z = r₀.z) ∧
    (∀ (cfg : Config) (dir : Vec3) (p₀ r₀ : Vec3),
        (frameStep cfg dir (initState p₀ r₀)).kin.rot.x = 0 ∧
        (frameStep cfg dir (initState p₀ r₀)).kin.rot.y = 0 ∧
        (frameStep cfg dir (initState p₀ r₀)).kin.rot.z = r₀.z) := by
  refine ⟨?_, ?_, ?_⟩
  · intro cfg dir s
    rw [frameStep_kin_rot]
    exact ⟨rfl, rfl, rfl⟩
  · intro cfg acts p₀ r₀ hno
    obtain ⟨_, g2, g3, g4⟩ :=
      run_noTimer_inv cfg acts (initState p₀ r₀) hno rfl
    exact ⟨g2, g3, g4⟩
  · intro cfg dir p₀ r₀
    refine ⟨?_, ?_, ?_⟩
    · rw [frameStep_kin_rot]
      show (frameStep cfg dir (initState p₀ r₀)).kin.pitch = 0
      rw [frameStep_kin_pitch]
      simp [initState]
    · rw [frameStep_kin_rot]
      show (frameStep cfg dir (initState p₀ r₀)).kin.yaw = 0
      rw [frameStep_kin_yaw]
      simp [initState]
    · rw [frameStep_kin_rot]
      rfl

@[simp] theorem Vec3.mk_add_mk (a b c d e f : ℝ) :
    (⟨a, b, c⟩ : Vec3) + ⟨d, e, f⟩ = ⟨a + d, b + e, c + f⟩ := rfl

@[simp] theorem Vec3.mk_sub_mk (a b c d e f : ℝ) :
    (⟨a, b, c⟩ : Vec3) - ⟨d, e, f⟩ = ⟨a - d, b - e, c - f⟩ := rfl

@[simp] theorem Vec3.smul_mk (t a b c : ℝ) :
    t • (⟨a, b, c⟩ : Vec3) = ⟨t * a, t * b, t * c⟩ := rfl

theorem normXZ_nonneg (v : Vec3) : 0 ≤ normXZ v := Real.sqrt_nonneg _

theorem normXZ_smul (t : ℝ) (v : Vec3) : normXZ (t • v) = |t| * normXZ v := by
  unfold normXZ
  simp only [Vec3.smul_x, Vec3.smul_z]
  rw [show (t * v.x) ^ 2 + (t * v.z) ^ 2 = t ^ 2 * (v.x ^ 2 + v.z ^ 2) by ring,
      Real.sqrt_mul (sq_nonneg t), Real.sqrt_sq_eq_abs]

theorem horizForward_y (dir : Vec3) : (horizForward dir).y = 0 := by
  unfold horizForward normalize3
  split
  · rfl
  · simp

theorem velAfterInput_noKeys (cfg : Config) (dir : Vec3) (s : State)
    (hk : s.input.keys = []) :
    velAfterInput cfg dir s =
      ⟨s.kin.vel.x * cfg.friction, s.kin.vel.y * 0.7,
       s.kin.vel.z * cfg.friction⟩ := by
  unfold velAfterInput moveVelocity inputDirOf
  norm_num [hk, norm3, Real.sqrt_zero]

theorem velAfterInput_forwardOnly (cfg : Config) (dir : Vec3) (s : State)
    (hfwd : dir.x ^ 2 + dir.z ^ 2 ≠ 0)
    (hW : keyW ∈ s.input.keys ∨ keyUpArrow ∈ s.input.keys)
    (h2 : keyS ∉ s.input.keys) (h3 : keyDownArrow ∉ s.input.keys)
    (h4 : keyA ∉ s.input.keys) (h5 : keyLeftArrow ∉ s.input.keys)
    (h6 : keyD ∉ s.input.keys) (h7 : keyRightArrow ∉ s.input.keys)
    (h8 : keyR ∉ s.input.keys) (h9 : keySpace ∉ s.input.keys)
    (h10 : keyF ∉ s.input.keys) (h11 : keyShiftL ∉ s.input.keys)
    (h12 : keyShiftR ∉ s.input.keys) :
    velAfterInput cfg dir s = cfg.moveSpeed • horizForward dir := by
  have hnz : norm3 ⟨dir.x, 0, dir.z⟩ ≠ 0 := by
    rw [norm3_mk]
    intro h0
    apply hfwd
    have hle := Real.sqrt_eq_zero'.mp h0
    nlinarith [sq_nonneg dir.x, sq_nonneg dir.z]
  have hf1 : norm3 (horizForward dir) = 1 := norm3_normalize3 _ hnz
  have hin : inputDirOf s.input.keys (horizForward dir)
      (rightVec (horizForward dir)) = horizForward dir := by
    simp only [inputDirOf]
    rw [if_pos hW, if_neg (not_or.mpr ⟨h2, h3⟩), if_neg (not_or.mpr ⟨h4, h5⟩),
        if_neg (not_or.mpr ⟨h6, h7⟩), if_neg (not_or.mpr ⟨h8, h9⟩),
        if_neg (not_or.mpr ⟨h10, not_or.mpr ⟨h11, h12⟩⟩)]
    ext <;> simp
  unfold velAfterInput
  simp only [moveVelocity]
  rw [hin, hf1, if_pos (by norm_num : (1 : ℝ) > 0),
      normalize3_of_norm_one _ hf1]

theorem frameStep_interior (cfg : Config) (dir : Vec3) (s : State)
    (h1 : ¬ (s.kin.pos + velAfterInput cfg dir s).y < cfg.minHeight)
    (h2 : ¬ (s.kin.pos + velAfterInput cfg dir s).y > cfg.maxHeight)
    (h3 : ¬ dist3 (s.kin.pos + velAfterInput cfg dir s) cfg.treeCenter >
            cfg.maxDistance)
    (h4 : s.input.mouseControlReady = false) :
    frameStep cfg dir s = { s with kin := { s.kin with
        pos := s.kin.pos + velAfterInput cfg dir s,
        vel := velAfterInput cfg dir s,
        rot := ⟨s.kin.pitch, s.kin.yaw, s.kin.rot.z⟩ } } := by
  simp only [frameStep, pvFinal, pvCeiling, pvFloor, pvIntegrated, clampFloor,
    clampCeiling, radialClamp, mouseLook, applyRotation]
  rw [if_neg h1]
  dsimp only
  rw [if_neg h2]
  dsimp only
  rw [if_neg h3]
  rw [h4]
  simp

theorem iterate_frameStep_input (cfg : Config) (dir : Vec3) (s : State) :
    ∀ n : ℕ, ((frameStep cfg dir)^[n] s).input = s.input := by
  intro n
  induction n with
  | zero => rfl
  | succ m ih => rw [Function.iterate_succ_apply', frameStep_input, ih]

theorem clampFloor_vel (cfg : Config) (p v : Vec3) :
    (clampFloor cfg p v).2.x = v.x ∧ (clampFloor cfg p v).2.z = v.z ∧
    |(clampFloor cfg p v).2.y| ≤ |v.y| := by
  unfold clampFloor
  split
  · exact ⟨rfl, rfl, by simp [abs_nonneg]⟩
  · exact ⟨rfl, rfl, le_rfl⟩

theorem clampCeiling_vel (cfg : Config) (p v : Vec3) :
    (clampCeiling cfg p v).2.x = v.x ∧ (clampCeiling cfg p v).2.z = v.z ∧
    |(clampCeiling cfg p v).2.y| ≤ |v.y| := by
  unfold clampCeiling
  split
  · exact ⟨rfl, rfl, by simp [abs_nonneg]⟩
  · exact ⟨rfl, rfl, le_rfl⟩

theorem radialClamp_vel (cfg : Config) (p v : Vec3) :
    normXZ (radialClamp cfg p v).2 ≤ normXZ v ∧
    |(radialClamp cfg p v).2.y| ≤ |v.y| := by
  unfold radialClamp
  split
  · dsimp only
    constructor
    · rw [normXZ_smul, show |(0.5 : ℝ)| = 0.5 by norm_num]
      nlinarith [normXZ_nonneg v]
    · rw [Vec3.smul_y, abs_mul, show |(0.5 : ℝ)| = 0.5 by norm_num]
      nlinarith [abs_nonneg v.y]
  · exact ⟨le_rfl, le_rfl⟩

theorem frameStep_vel_decay (cfg : Config) (dir : Vec3) (s : State)
    (hk : s.input.keys = []) (hf0 : 0 ≤ cfg.friction)
    (hf1 : cfg.friction ≤ 1) :
    normXZ (frameStep cfg dir s).kin.vel ≤ normXZ s.kin.vel ∧
    |(frameStep cfg dir s).kin.vel.y| ≤ |s.kin.vel.y| := by
  rw [frameStep_kin_vel]
  have hv1 := velAfterInput_noKeys cfg dir s hk
  have hbase : normXZ (velAfterInput cfg dir s) ≤ normXZ s.kin.vel ∧
      |(velAfterInput cfg dir s).y| ≤ |s.kin.vel.y| := by
    rw [hv1]
    constructor
    · unfold normXZ
      dsimp only
      rw [show (s.kin.vel.x * cfg.friction) ^ 2 +
            (s.kin.vel.z * cfg.friction) ^ 2
            = cfg.friction ^ 2 * (s.kin.vel.x ^ 2 + s.kin.vel.z ^ 2) by ring,
          Real.sqrt_mul (sq_nonneg _), Real.sqrt_sq_eq_abs,
          abs_of_nonneg hf0]
      exact mul_le_of_le_one_left (Real.sqrt_nonneg _) hf1
    · dsimp only
      rw [abs_mul, show |(0.7 : ℝ)| = 0.7 by norm_num]
      nlinarith [abs_nonneg s.kin.vel.y]
  have c1 := clampFloor_vel cfg (pvIntegrated cfg dir s).1
    (pvIntegrated cfg dir s).2
  have c2 := clampCeiling_vel cfg (pvFloor cfg dir s).1 (pvFloor cfg dir s).2
  have c3 := radialClamp_vel cfg (pvCeiling cfg dir s).1
    (pvCeiling cfg dir s).2
  constructor
  · calc normXZ (pvFinal cfg dir s).2
        ≤ normXZ (pvCeiling cfg dir s).2 := by unfold pvFinal; exact c3.1
      _ = normXZ (pvFloor cfg dir s).2 := by
          unfold pvCeiling normXZ
          rw [c2.1, c2.2.1]
      _ = normXZ (velAfterInput cfg dir s) := by
          unfold pvFloor normXZ
          rw [c1.1, c1.2.1]
          rfl
      _ ≤ normXZ s.kin.vel := hbase.1
  · calc |(pvFinal cfg dir s).2.y|
        ≤ |(pvCeiling cfg dir s).2.y| := by unfold pvFinal; exact c3.2
      _ ≤ |(pvFloor cfg dir s).2.y| := by unfold pvCeiling; exact c2.2.2
      _ ≤ |(pvIntegrated cfg dir s).2.y| := by unfold pvFloor; exact c1.2.2
      _ ≤ |s.kin.vel.y| := hbase.2

/-- Claim C4: with a single forward key held (and no other movement key) and
the camera's forward direction not vertical, the velocity assigned by the
input stage is exactly moveSpeed times the normalized horizontal forward
direction, regardless of the prior velocity; and if the integrated position
does not hit the radial boundary this is also the frame's final velocity (the
height clamps cannot change it because its vertical component is zero). -/
theorem claim_C4 (cfg : Config) (dir : Vec3) (s : State)
    (hfwd : dir.x ^ 2 + dir.z ^ 2 ≠ 0)
    (hW : keyW ∈ s.input.keys ∨ keyUpArrow ∈ s.input.keys)
    (h2 : keyS ∉ s.input.keys) (h3 : keyDownArrow ∉ s.input.keys)
    (h4 : keyA ∉ s.input.keys) (h5 : keyLeftArrow ∉ s.input.keys)
    (h6 : keyD ∉ s.input.keys) (h7 : keyRightArrow ∉ s.input.keys)
    (h8 : keyR ∉ s.input.keys) (h9 : keySpace ∉ s.input.keys)
    (h10 : keyF ∉ s.input.keys) (h11 : keyShiftL ∉ s.input.keys)
    (h12 : keyShiftR ∉ s.input.keys)
    (hRad : ¬ dist3 (pvCeiling cfg dir s).1 cfg.treeCenter >
              cfg.maxDistance) :
    velAfterInput cfg dir s = cfg.moveSpeed • horizForward dir ∧
    (frameStep cfg dir s).kin.vel = cfg.moveSpeed • horizForward dir := by
  have hv1 := velAfterInput_forwardOnly cfg dir s hfwd hW h2 h3 h4 h5 h6 h7
    h8 h9 h10 h11 h12
  have hv1y : (velAfterInput cfg dir s).y = 0 := by
    rw [hv1, Vec3.smul_y, horizForward_y, mul_zero]
  refine ⟨hv1, ?_⟩
  rw [frameStep_kin_vel]
  have hfloor : (pvFloor cfg dir s).2 = velAfterInput cfg dir s := by
    unfold pvFloor clampFloor pvIntegrated
    split
    · dsimp only
      ext <;> simp [hv1y]
    · rfl
  have hceil : (pvCeiling cfg dir s).2 = velAfterInput cfg dir s := by
    unfold pvCeiling clampCeiling
    split
    · dsimp only
      rw [hfloor]
      ext <;> simp [hv1y]
    · exact hfloor
  unfold pvFinal
  rw [radialClamp_skipped cfg _ _ hRad]
  dsimp only
  rw [hceil, hv1]

/-- Witness for claim C4 at a concrete configuration: W held, camera facing
negative z, prior velocity (5, 5, 5). -/
theorem claim_C4_witness :
    keyW ∈ sC4.input.keys ∧
    (frameStep cfgC4 dirNegZ sC4).kin.vel =
      cfgC4.moveSpeed • horizForward dirNegZ := by
  have hsq1 : Real.sqrt 1 = 1 := Real.sqrt_one
  have hfw : horizForward dirNegZ = ⟨0, 0, -1⟩ := by
    norm_num [horizForward, dirNegZ, normalize3, norm3, hsq1]
  have hv : velAfterInput cfgC4 dirNegZ sC4 = ⟨0, 0, -2⟩ := by
    rw [velAfterInput_forwardOnly cfgC4 dirNegZ sC4 (by norm_num [dirNegZ])
      (Or.inl (by simp [sC4])) (by decide) (by decide) (by decide) (by decide)
      (by decide) (by decide) (by decide) (by decide) (by decide) (by decide)
      (by decide), hfw]
    norm_num [cfgC4]
  have hrad : ¬ dist3 (pvCeiling cfgC4 dirNegZ sC4).1 cfgC4.treeCenter >
      cfgC4.maxDistance := by
    have hpv : (pvCeiling cfgC4 dirNegZ sC4).1 = ⟨0, 0, -2⟩ := by
      simp only [pvCeiling, pvFloor, pvIntegrated, hv]
      norm_num [clampFloor, clampCeiling, sC4, cfgC4]
    rw [hpv]
    apply not_lt.mpr
    unfold dist3 norm3
    apply Real.sqrt_le_iff.mpr
    constructor <;> norm_num [cfgC4]
  refine ⟨by simp [sC4], ?_⟩
  exact (claim_C4 cfgC4 dirNegZ sC4 (by norm_num [dirNegZ])
    (Or.inl (by simp [sC4])) (by decide) (by decide) (by decide) (by decide)
    (by decide) (by decide) (by decide) (by decide) (by decide) (by decide)
    (by decide) hrad).2

theorem horizForward_dirNegZ : horizForward dirNegZ = ⟨0, 0, -1⟩ := by
  norm_num [horizForward, dirNegZ, normalize3, norm3, Real.sqrt_one]

/-- Claim C5: with no movement key held the velocity decays by the friction
factor on x and z and by the hard-coded 0.7 on y; across any number of
keyless, eventless frames both the horizontal and the vertical velocity
magnitude are non-increasing (for friction in [0, 1], also through the
boundary clamps, which only zero or halve velocity); and in the concrete
scenario with moveSpeed 1 and friction 1/2, one frame with W held followed by
three keyless frames yields velocity magnitudes 1, 1/2, 1/4, 1/8. -/
theorem claim_C5 :
    (∀ (cfg : Config) (dir : Vec3) (s : State), s.input.keys = [] →
        velAfterInput cfg dir s =
          ⟨s.kin.vel.x * cfg.friction, s.kin.vel.y * 0.7,
           s.kin.vel.z * cfg.friction⟩) ∧
    (∀ (cfg : Config) (dir : Vec3) (s : State), s.input.keys = [] →
        0 ≤ cfg.friction → cfg.friction ≤ 1 → ∀ n : ℕ,
        normXZ ((frameStep cfg dir)^[n + 1] s).kin.vel ≤
          normXZ ((frameStep cfg dir)^[n] s).kin.vel ∧
        |((frameStep cfg dir)^[n + 1] s).kin.vel.y| ≤
          |((frameStep cfg dir)^[n] s).kin.vel.y|) ∧
    (norm3 (run cfgC5 [actKD, actF] sC5).kin.vel = 1 ∧
     norm3 (run cfgC5 [actKD, actF, actKU, actF] sC5).kin.vel = 1 / 2 ∧
     norm3 (run cfgC5 [actKD, actF, actKU, actF, actF] sC5).kin.vel = 1 / 4 ∧
     norm3 (run cfgC5 [actKD, actF, actKU, actF, actF, actF] sC5).kin.vel
       = 1 / 8) := by
  refine ⟨fun cfg dir s hk => velAfterInput_noKeys cfg dir s hk, ?_, ?_⟩
  · intro cfg dir s hk hf0 hf1 n
    rw [Function.iterate_succ_apply']
    refine frameStep_vel_decay cfg dir _ ?_ hf0 hf1
    rw [iterate_frameStep_input cfg dir s n]
    exact hk
  · have hA : applyAct cfgC5 actKD sC5 = sC5a := by
      simp [applyAct, actKD, handleEvent, sC5, sC5a, initState, List.insert]
    have hB : frameStep cfgC5 dirNegZ sC5a = sC5b := by
      have hv : velAfterInput cfgC5 dirNegZ sC5a = ⟨0, 0, -1⟩ := by
        rw [velAfterInput_forwardOnly cfgC5 dirNegZ sC5a
          (by norm_num [dirNegZ]) (Or.inl (by simp [sC5a])) (by decide)
          (by decide) (by decide) (by decide) (by decide) (by decide)
          (by decide) (by decide) (by decide) (by decide) (by decide),
          horizForward_dirNegZ]
        norm_num [cfgC5]
      rw [frameStep_interior cfgC5 dirNegZ sC5a
        (by rw [hv]; norm_num [sC5a, cfgC5])
        (by rw [hv]; norm_num [sC5a, cfgC5])
        (by rw [hv]
            apply not_lt.mpr
            unfold dist3 norm3
            apply Real.sqrt_le_iff.mpr
            constructor <;> norm_num [sC5a, cfgC5]) rfl, hv]
      norm_num [sC5a, sC5b]
    have hC : applyAct cfgC5 actKU sC5b = sC5c := by
      have herase : ([keyW] : List String).erase keyW = [] := by decide
      simp [applyAct, actKU, handleEvent, herase, sC5b, sC5c]
    have hD : frameStep cfgC5 dirNegZ sC5c = sC5d := by
      have hv : velAfterInput cfgC5 dirNegZ sC5c = ⟨0, 0, -(1 / 2)⟩ := by
        rw [velAfterInput_noKeys cfgC5 dirNegZ sC5c rfl]
        norm_num [sC5c, cfgC5]
      rw [frameStep_interior cfgC5 dirNegZ sC5c
        (by rw [hv]; norm_num [sC5c, cfgC5])
        (by rw [hv]; norm_num [sC5c, cfgC5])
        (by rw [hv]
            apply not_lt.mpr
            unfold dist3 norm3
            apply Real.sqrt_le_iff.mpr
            constructor <;> norm_num [sC5c, cfgC5]) rfl, hv]
      norm_num [sC5c, sC5d]
    have hE : frameStep cfgC5 dirNegZ sC5d = sC5e := by
      have hv : velAfterInput cfgC5 dirNegZ sC5d = ⟨0, 0, -(1 / 4)⟩ := by
        rw [velAfterInput_noKeys cfgC5 dirNegZ sC5d rfl]
        norm_num [sC5d, cfgC5]
      rw [frameStep_interior cfgC5 dirNegZ sC5d
        (by rw [hv]; norm_num [sC5d, cfgC5])
        (by rw [hv]; norm_num [sC5d, cfgC5])
        (by rw [hv]
            apply not_lt.mpr
            unfold dist3 norm3
            apply Real.sqrt_le_iff.mpr
            constructor <;> norm_num [sC5d, cfgC5]) rfl, hv]
      norm_num [sC5d, sC5e]
    have hF : frameStep cfgC5 dirNegZ sC5e = sC5f := by
      have hv : velAfterInput cfgC5 dirNegZ sC5e = ⟨0, 0, -(1 / 8)⟩ := by
        rw [velAfterInput_noKeys cfgC5 dirNegZ sC5e rfl]
        norm_num [sC5e, cfgC5]
      rw [frameStep_interior cfgC5 dirNegZ sC5e
        (by rw [hv]; norm_num [sC5e, cfgC5])
        (by rw [hv]; norm_num [sC5e, cfgC5])
        (by rw [hv]
            apply not_lt.mpr
            unfold dist3 norm3
            apply Real.sqrt_le_iff.mpr
            constructor <;> norm_num [sC5e, cfgC5]) rfl, hv]
      norm_num [sC5e, sC5f]
    have hB' : applyAct cfgC5 actF sC5a = sC5b := hB
    have hD' : applyAct cfgC5 actF sC5c = sC5d := hD
    have hE' : applyAct cfgC5 actF sC5d = sC5e := hE
    have hF' : applyAct cfgC5 actF sC5e = sC5f := hF
    have r1 : run cfgC5 [actKD, actF] sC5 = sC5b := by
      show applyAct cfgC5 actF (applyAct cfgC5 actKD sC5) = sC5b
      rw [hA, hB']
    have r2 : run cfgC5 [actKD, actF, actKU, actF] sC5 = sC5d := by
      show applyAct cfgC5 actF (applyAct cfgC5 actKU
        (applyAct cfgC5 actF (applyAct cfgC5 actKD sC5))) = sC5d
      rw [hA, hB', hC, hD']
    have r3 : run cfgC5 [actKD, actF, actKU, actF, actF] sC5 = sC5e := by
      show applyAct cfgC5 actF (applyAct cfgC5 actF (applyAct cfgC5 actKU
        (applyAct cfgC5 actF (applyAct cfgC5 actKD sC5)))) = sC5e
      rw [hA, hB', hC, hD', hE']
    have r4 : run cfgC5 [actKD, actF, actKU, actF, actF, actF] sC5
        = sC5f := by
      show applyAct cfgC5 actF (applyAct cfgC5 actF (applyAct cfgC5 actF
        (applyAct cfgC5 actKU
          (applyAct cfgC5 actF (applyAct cfgC5 actKD sC5))))) = sC5f
      rw [hA, hB', hC, hD', hE', hF']
    have q2 : Real.sqrt (1 / 4) = 1 / 2 :=
      sqrt_eval (by norm_num) (by norm_num)
    have q3 : Real.sqrt (1 / 16) = 1 / 4 :=
      sqrt_eval (by norm_num) (by norm_num)
    have q4 : Real.sqrt (1 / 64) = 1 / 8 :=
      sqrt_eval (by norm_num) (by norm_num)
    rw [r1, r2, r3, r4]
    refine ⟨?_, ?_, ?_, ?_⟩
    · norm_num [sC5b, norm3, Real.sqrt_one]
    · norm_num [sC5d, norm3, q2]
    · norm_num [sC5e, norm3, q3]
    · norm_num [sC5f, norm3, q4]

/-- Witness for claim C5: its monotone-decay part instantiated at a concrete
keyless state with friction 1/2. -/
theorem claim_C5_witness :
    sC5c.input.keys = [] ∧ 0 ≤ cfgC5.friction ∧ cfgC5.friction ≤ 1 ∧
    (normXZ ((frameStep cfgC5 dirNegZ)^[1] sC5c).kin.vel ≤
       normXZ ((frameStep cfgC5 dirNegZ)^[0] sC5c).kin.vel ∧
     |((frameStep cfgC5 dirNegZ)^[1] sC5c).kin.vel.y| ≤
       |((frameStep cfgC5 dirNegZ)^[0] sC5c).kin.vel.y|) := by
  refine ⟨rfl, by norm_num [cfgC5], by norm_num [cfgC5], ?_⟩
  exact claim_C5.2.1 cfgC5 dirNegZ sC5c rfl (by norm_num [cfgC5])
    (by norm_num [cfgC5]) 0

/-- Claim C6 fails as stated: with the mouse held right of the dead zone but a
positive smoothed yaw speed surviving from earlier input, the very next frame
still increases yaw (turns the camera left), so yaw does not change
monotonically in the rightward direction from the first frame of a sustained
offset. -/
theorem claim_C6_counterexample :
    sC6.input.mouseControlReady = true ∧
    cfgC6.deadZone < sC6.input.mouseX ∧
    (frameStep cfgC6 dirNegZ sC6).kin.yaw > sC6.kin.yaw := by
  refine ⟨rfl, by norm_num [cfgC6, sC6], ?_⟩
  have htg : targetYawSpeed cfgC6 sC6.input.mouseX = -(3 / 625) := by
    unfold targetYawSpeed
    rw [deadZoneAdjust_of_gt cfgC6.deadZone sC6.input.mouseX
      (by norm_num [cfgC6]) (by norm_num [cfgC6, sC6])]
    norm_num [cfgC6, sC6]
  rw [frameStep_kin_yaw, htg]
  norm_num [sC6]

/-- Claim C6, amended: before activation no frame changes yaw or pitch; after
activation, a sustained horizontal offset right of the dead zone (with
non-negative dead zone and positive sensitivity) drives yaw strictly down —
the rightward turn — on every consecutive frame, provided the smoothed yaw
speed is not positive when the sustained offset begins (in particular from
angular rest); with an opposite residual speed the turn is only eventual, as
the counterexample shows. -/
theorem claim_C6 :
    (∀ (cfg : Config) (dir : Vec3) (s : State),
        s.input.mouseControlReady = false →
        (frameStep cfg dir s).kin.yaw = s.kin.yaw ∧
        (frameStep cfg dir s).kin.pitch = s.kin.pitch) ∧
    (∀ (cfg : Config) (dir : Vec3) (s : State),
        s.input.mouseControlReady = true → 0 ≤ cfg.deadZone →
        cfg.deadZone < s.input.mouseX → 0 < cfg.lookSensitivity →
        s.kin.yawSpeed ≤ 0 → ∀ n : ℕ,
        ((frameStep cfg dir)^[n + 1] s).kin.yaw <
          ((frameStep cfg dir)^[n] s).kin.yaw) := by
  constructor
  · intro cfg dir s h
    constructor
    · rw [frameStep_kin_yaw, h]
      simp
    · rw [frameStep_kin_pitch, h]
      simp
  · intro cfg dir s hr hdz hmx hsens hys0
    have htgt : targetYawSpeed cfg s.input.mouseX < 0 := by
      unfold targetYawSpeed
      rw [deadZoneAdjust_of_gt _ _ hdz hmx]
      have hpos : 0 < (s.input.mouseX - cfg.deadZone) *
          cfg.lookSensitivity * 0.012 :=
        mul_pos (mul_pos (sub_pos.mpr hmx) hsens) (by norm_num)
      nlinarith [hpos]
    have hysn : ∀ n : ℕ, ((frameStep cfg dir)^[n] s).kin.yawSpeed ≤ 0 := by
      intro n
      induction n with
      | zero => exact hys0
      | succ m ih =>
        rw [Function.iterate_succ_apply', frameStep_kin_yawSpeed,
            iterate_frameStep_input cfg dir s m, hr]
        simp only [if_true]
        linarith [htgt, ih]
    intro n
    rw [Function.iterate_succ_apply', frameStep_kin_yaw,
        iterate_frameStep_input cfg dir s n, hr]
    simp only [if_true]
    linarith [htgt, hysn n]

/-- Witness for the amended claim C6: from angular rest with the mouse right
of the dead zone, the first frame strictly decreases yaw. -/
theorem claim_C6_witness :
    sC6w.input.mouseControlReady = true ∧
    cfgC6.deadZone < sC6w.input.mouseX ∧ sC6w.kin.yawSpeed ≤ 0 ∧
    ((frameStep cfgC6 dirNegZ)^[1] sC6w).kin.yaw <
      ((frameStep cfgC6 dirNegZ)^[0] sC6w).kin.yaw := by
  refine ⟨rfl, by norm_num [cfgC6, sC6w], by norm_num [sC6w], ?_⟩
  exact claim_C6.2 cfgC6 dirNegZ sC6w rfl (by norm_num [cfgC6])
    (by norm_num [cfgC6, sC6w]) (by norm_num [cfgC6]) (by norm_num [sC6w]) 0

/-- Claim C7 fails as stated: a mouse movement delivered while the delay timer
is pending (started but not fired) leaves the whole state unchanged — the
offset (here 1/2 in normalized coordinates) is dropped, not recorded. -/
theorem claim_C7_counterexample :
    handleEvent cfgC7 (DevEvent.mouseMove 75 50) sC7 = sC7 ∧
    (75 / cfgC7.width * 2 - 1 : ℝ) ≠ 0 := by
  constructor
  · simp [handleEvent, sC7]
  · norm_num [cfgC7]

/-- Claim C7, amended: a mouse movement delivered before activation does not
record its offset — the stored mouse offset is unchanged (the handler returns
before the write); the only effect is starting the delay timer; and the
simulator also leaves yaw, pitch and the smoothed speeds unchanged on every
frame while activation is pending. -/
theorem claim_C7 (cfg : Config) (cx cy : ℝ) (dir : Vec3) (s : State)
    (h : s.input.mouseControlReady = false) :
    ((handleEvent cfg (DevEvent.mouseMove cx cy) s).input.mouseX =
        s.input.mouseX ∧
     (handleEvent cfg (DevEvent.mouseMove cx cy) s).input.mouseY =
        s.input.mouseY ∧
     (handleEvent cfg (DevEvent.mouseMove cx cy) s).input.delayTimerStarted =
        true ∧
     (handleEvent cfg (DevEvent.mouseMove cx cy) s).kin = s.kin) ∧
    ((frameStep cfg dir s).kin.yaw = s.kin.yaw ∧
     (frameStep cfg dir s).kin.pitch = s.kin.pitch ∧
     (frameStep cfg dir s).kin.yawSpeed = s.kin.yawSpeed ∧
     (frameStep cfg dir s).kin.pitchSpeed = s.kin.pitchSpeed) := by
  have hh : handleEvent cfg (DevEvent.mouseMove cx cy) s =
      { s with input.delayTimerStarted := true } := by
    simp [handleEvent, h]
  constructor
  · rw [hh]
    exact ⟨rfl, rfl, rfl, rfl⟩
  · refine ⟨?_, ?_, ?_, ?_⟩
    · rw [frameStep_kin_yaw, h]
      simp
    · rw [frameStep_kin_pitch, h]
      simp
    · rw [frameStep_kin_yawSpeed, h]
      simp
    · rw [frameStep_kin_pitchSpeed, h]
      simp

/-- Witness for the amended claim C7 at a concrete pending-timer state. -/
theorem claim_C7_witness :
    sC7.input.mouseControlReady = false ∧
    (handleEvent cfgC7 (DevEvent.mouseMove 75 50) sC7).input.mouseX =
      sC7.input.mouseX :=
  ⟨rfl, (claim_C7 cfgC7 75 50 dirNegZ sC7 rfl).1.1⟩

/-- Claim C8 fails as stated: pointer-leave zeroes the stored offset, but the
smoothed angular speed built up by the pre-leave offset persists, so the very
next frame still changes yaw (here by 0.96, the surviving speed after one
easing step toward the now-zero target). -/
theorem claim_C8_counterexample :
    (frameStep cfgC8 dirNegZ
        (handleEvent cfgC8 DevEvent.mouseLeave sC8)).kin.yaw ≠
      sC8.kin.yaw := by
  have hl : handleEvent cfgC8 DevEvent.mouseLeave sC8 =
      { sC8 with input.mouseX := 0, input.mouseY := 0 } := rfl
  rw [hl, frameStep_kin_yaw]
  norm_num [sC8, targetYawSpeed_zero]

/-- Claim C8, amended: pointer-leave immediately zeroes the stored mouse
offset and touches nothing else; on the following frame the target angular
speeds are therefore zero, but the smoothed yaw and pitch speeds are not
cleared — they decay geometrically by the factor 0.96 per frame — so the
frame after a pointer-leave still applies the residual speed 0.96 times the
pre-leave smoothed speed to yaw and pitch; yaw is unchanged only when the
pre-leave smoothed yaw speed was already zero. -/
theorem claim_C8 :
    (∀ (cfg : Config) (s : State),
        (handleEvent cfg DevEvent.mouseLeave s).input.mouseX = 0 ∧
        (handleEvent cfg DevEvent.mouseLeave s).input.mouseY = 0 ∧
        (handleEvent cfg DevEvent.mouseLeave s).kin = s.kin) ∧
    (∀ (cfg : Config) (dir : Vec3) (s : State),
        s.input.mouseControlReady = true →
        (frameStep cfg dir
            (handleEvent cfg DevEvent.mouseLeave s)).kin.yawSpeed =
          0.96 * s.kin.yawSpeed ∧
        (frameStep cfg dir
            (handleEvent cfg DevEvent.mouseLeave s)).kin.yaw =
          s.kin.yaw + 0.96 * s.kin.yawSpeed ∧
        (frameStep cfg dir
            (handleEvent cfg DevEvent.mouseLeave s)).kin.pitchSpeed =
          0.96 * s.kin.pitchSpeed ∧
        (frameStep cfg dir
            (handleEvent cfg DevEvent.mouseLeave s)).kin.pitch =
          max (-0.7) (min 0.7 (s.kin.pitch + 0.96 * s.kin.pitchSpeed))) := by
  constructor
  · exact fun cfg s => ⟨rfl, rfl, rfl⟩
  · intro cfg dir s h
    have hl : handleEvent cfg DevEvent.mouseLeave s =
        { s with input.mouseX := 0, input.mouseY := 0 } := rfl
    rw [hl]
    refine ⟨?_, ?_, ?_, ?_⟩
    · have e1 : (frameStep cfg dir
          { s with input.mouseX := 0, input.mouseY := 0 }).kin.yawSpeed =
          s.kin.yawSpeed + (targetYawSpeed cfg 0 - s.kin.yawSpeed) * 0.04 := by
        rw [frameStep_kin_yawSpeed]
        simp [h]
      rw [e1, targetYawSpeed_zero]
      ring
    · have e2 : (frameStep cfg dir
          { s with input.mouseX := 0, input.mouseY := 0 }).kin.yaw =
          s.kin.yaw +
            (s.kin.yawSpeed + (targetYawSpeed cfg 0 - s.kin.yawSpeed) * 0.04)
          := by
        rw [frameStep_kin_yaw]
        simp [h]
      rw [e2, targetYawSpeed_zero]
      ring
    · have e3 : (frameStep cfg dir
          { s with input.mouseX := 0, input.mouseY := 0 }).kin.pitchSpeed =
          s.kin.pitchSpeed +
            (targetPitchSpeed cfg 0 - s.kin.pitchSpeed) * 0.04 := by
        rw [frameStep_kin_pitchSpeed]
        simp [h]
      rw [e3, targetPitchSpeed_zero]
      ring
    · have e4 : (frameStep cfg dir
          { s with input.mouseX := 0, input.mouseY := 0 }).kin.pitch =
          max (-0.7) (min 0.7 (s.kin.pitch + (s.kin.pitchSpeed +
            (targetPitchSpeed cfg 0 - s.kin.pitchSpeed) * 0.04))) := by
        rw [frameStep_kin_pitch]
        simp [h]
      rw [e4, targetPitchSpeed_zero]
      have harith : s.kin.pitch +
          (s.kin.pitchSpeed + (0 - s.kin.pitchSpeed) * 0.04) =
          s.kin.pitch + 0.96 * s.kin.pitchSpeed := by ring
      rw [harith]

/-- Witness for the amended claim C8 at a concrete active-mouse state. -/
theorem claim_C8_witness :
    sC8.input.mouseControlReady = true ∧
    (frameStep cfgC8 dirNegZ
        (handleEvent cfgC8 DevEvent.mouseLeave sC8)).kin.yawSpeed =
      0.96 * sC8.kin.yawSpeed :=
  ⟨rfl, (claim_C8.2 cfgC8 dirNegZ sC8 rfl).1⟩

/-- Witness for claim C10: a single frame from a fresh session discharges the
no-timer hypothesis. -/
theorem claim_C10_witness :
    (∀ a ∈ [Act.frame dirNegZ], a ≠ Act.timerFire) ∧
    ((run cfgC10 [Act.frame dirNegZ]
        (initState ⟨1, 2, 3⟩ ⟨4, 5, 6⟩)).kin.yaw = 0 ∧
     (run cfgC10 [Act.frame dirNegZ]
        (initState ⟨1, 2, 3⟩ ⟨4, 5, 6⟩)).kin.pitch = 0 ∧
     (run cfgC10 [Act.frame dirNegZ]
        (initState ⟨1, 2, 3⟩ ⟨4, 5, 6⟩)).kin.rot.z = 6) := by
  have hno : ∀ a ∈ [Act.frame dirNegZ], a ≠ Act.timerFire := by
    intro a ha
    simp only [List.mem_singleton] at ha
    subst ha
    simp
  exact ⟨hno, claim_C10.2.1 cfgC10 [Act.frame dirNegZ] ⟨1, 2, 3⟩ ⟨4, 5, 6⟩ hno⟩

end

end Yggdrasil
